import Mathlib

/-!
Verification of the GreenAI repository.

The development shallowly embeds the three Python source files:
* `airflow_dags/yolo_training_pipeline.py` — the weekly training /
  evaluation / registration / A-B test / promotion pipeline over the
  MLflow model registry;
* `appgen.py` — the Streamlit image-upload-and-chat application
  (object detection, bounding-box rendering, chat-completion request);
* `metrics_middleware.py` — the Prometheus metric helpers.

External collaborators (the YOLO trainer and validator, the HTTP layer,
the cv2 drawing primitives) are passed in as function parameters; machine
floats are embedded as rationals; code that can raise is embedded with
`Option`/`Except`, where the error constructor marks the raised exception.
-/

namespace GreenAI

/-! ## Data model of the training pipeline -/

/-- Lifecycle stage of a registered model version
(`None`, `Staging`, `Production`, `Archived` in MLflow). -/
inductive Stage where
  | noStage
  | staging
  | production
  | archived
deriving DecidableEq, Repr

/-- The binary quality label computed by `evaluate_model`. -/
inductive Quality where
  | good
  | needs_improvement
deriving DecidableEq, Repr

/-- One registered model version: its lifecycle stage and the
`eval_map50` metric logged on its originating run (absent if the run
never logged it). -/
structure Version where
  stage : Stage
  evalMap50 : Option ℚ
deriving DecidableEq, Repr

/-- The registry for the single model name `greenai-yolo-model`:
the list index is the (0-based) version number, oldest first; a new
registration appends at the end. -/
abbrev Registry := List Version

/-- Number of versions currently at stage Production. -/
def countProd (r : Registry) : Nat :=
  r.countP (fun v => v.stage == Stage.production)

/-- Index of the latest (highest-numbered) version at stage Production,
as returned by `client.get_latest_versions(MODEL_NAME, stages=["Production"])`;
`none` embeds the `IndexError` branch when no Production version exists. -/
def latestProdIdx : Registry → Option Nat
  | [] => none
  | v :: rest =>
    match latestProdIdx rest with
    | some i => some (i + 1)
    | none => if v.stage = Stage.production then some 0 else none

/-- `client.transition_model_version_stage`: set the stage of version `i`,
leaving every other version untouched (no-op on an absent version). -/
def transitionStage (r : Registry) (i : Nat) (s : Stage) : Registry :=
  match r[i]? with
  | some v => r.set i { v with stage := s }
  | none => r

/-! ## Evaluation stage (`evaluate_model`) -/

/-- The F1 entry of `evaluation_metrics` in `evaluate_model`:
`2 * (mp * mr) / (mp + mr)`, exactly as in the source, which has no
guard on the denominator.  `none` marks the zero-denominator division
the source performs unguarded (a `ZeroDivisionError` for Python floats,
a NaN for NumPy scalars) — in either case no defined fallback value is
produced. -/
def f1_from_precision_recall (mp mr : ℚ) : Option ℚ :=
  if mp + mr = 0 then none
  else some (2 * (mp * mr) / (mp + mr))

/-- `model_quality = "good" if evaluation_metrics['map50'] > 0.7 else
"needs_improvement"` from `evaluate_model`. -/
def model_quality (map50 : ℚ) : Quality :=
  if map50 > (7 / 10 : ℚ) then Quality.good else Quality.needs_improvement

/-! ## Registration stage (`register_model`) -/

/-- `register_model`: append a fresh version for the evaluated run; if the
quality label is good the version is advanced to Staging (tags are also
attached, not modelled), otherwise it stays at the default stage None.
The originating run carries the `eval_map50` metric logged by
`evaluate_model`. -/
def register_model (r : Registry) (map50 : ℚ) (q : Quality) : Registry :=
  r ++ [{ stage := if q = Quality.good then Stage.staging else Stage.noStage,
          evalMap50 := some map50 }]

/-! ## Comparison stage (`run_ab_test`) -/

/-- The `ab_test_results` record built by `run_ab_test`. -/
structure ABTestResults where
  new_model_version : Nat
  prod_model_version : Option Nat
  new_model_score : ℚ
  prod_model_score : ℚ
  improvement : ℚ
  significant_improvement : Bool
deriving DecidableEq, Repr

/-- `run_ab_test`, translated from the source: look up the latest
Production version; on `IndexError` (no such version) build the
first-model verdict with previous version `None`, previous score `0.0`
and `significant_improvement = True`; otherwise fetch the stored
`eval_map50` of the production version's originating run with
`metrics.get('eval_map50', 0.0)`, set `improvement = new - prod` and
`significant_improvement = improvement > 0.05`. -/
def run_ab_test (r : Registry) (newVer : Nat) (new_score : ℚ) : ABTestResults :=
  match latestProdIdx r with
  | some p =>
    let prod_score : ℚ := ((r[p]?).bind Version.evalMap50).getD 0
    let improvement : ℚ := new_score - prod_score
    { new_model_version := newVer
      prod_model_version := some p
      new_model_score := new_score
      prod_model_score := prod_score
      improvement := improvement
      significant_improvement := decide (improvement > (1 / 20 : ℚ)) }
  | none =>
    { new_model_version := newVer
      prod_model_version := none
      new_model_score := new_score
      prod_model_score := 0
      improvement := new_score
      significant_improvement := true }

/-- Reference verdict written from the spec's words (§4.5): if no version
is currently at Production, the verdict has previous version null,
previous score 0.0 and significant true unconditionally; if one exists,
its stored mAP@0.5 is fetched from its originating run (defaulting to
0.0 when absent), improvement is new minus previous, and significant
holds iff the improvement strictly exceeds 0.05. -/
def comparison_verdict_spec (r : Registry) (newVer : Nat) (new_score : ℚ) :
    ABTestResults :=
  match latestProdIdx r with
  | none =>
    { new_model_version := newVer
      prod_model_version := none
      new_model_score := new_score
      prod_model_score := 0
      improvement := new_score
      significant_improvement := true }
  | some p =>
    let previous_score : ℚ := ((r[p]?).bind Version.evalMap50).getD 0
    { new_model_version := newVer
      prod_model_version := some p
      new_model_score := new_score
      prod_model_score := previous_score
      improvement := new_score - previous_score
      significant_improvement := decide (new_score - previous_score > (1 / 20 : ℚ)) }

/-! ## Promotion stage (`promote_to_production`) -/

/-- The promotion decision from `promote_to_production`:
`model_quality == "good" and significant_improvement and new_model_score > 0.6`. -/
def should_promote (q : Quality) (sig : Bool) (new_score : ℚ) : Bool :=
  decide (q = Quality.good) && sig && decide (new_score > (3 / 5 : ℚ))

/-- `promote_to_production`: when the decision holds, archive the current
Production version if there is one (the `IndexError` branch makes its
absence a no-op), then transition the new version to Production, and
return `"promoted"`; otherwise leave the registry untouched and return
`"not_promoted"`. -/
def promote_to_production (r : Registry) (newIdx : Nat) (q : Quality)
    (sig : Bool) (new_score : ℚ) : Registry × String :=
  if should_promote q sig new_score then
    let r2 :=
      match latestProdIdx r with
      | some p => transitionStage r p Stage.archived
      | none => r
    (transitionStage r2 newIdx Stage.production, "promoted")
  else
    (r, "not_promoted")

/-! ## One pipeline run and run sequences -/

/-- One pipeline run after training produced validation score `map50`:
evaluate, register, A/B test, promote — the stages of the DAG that touch
the registry, composed in DAG order. -/
def pipelineRun (r : Registry) (map50 : ℚ) : Registry × String :=
  let q := model_quality map50
  let newIdx := r.length
  let r1 := register_model r map50 q
  let ab := run_ab_test r1 newIdx map50
  promote_to_production r1 newIdx q ab.significant_improvement ab.new_model_score

/-- A sequence of pipeline runs with the given validation scores. -/
def runPipeline (r0 : Registry) (scores : List ℚ) : Registry :=
  scores.foldl (fun r m => (pipelineRun r m).1) r0

/-! ## Training stage failure path (`train_yolo_model`) -/

/-- The `model_info` record pushed by `train_yolo_model` on success. -/
structure ModelInfo where
  run_id : String
  model_path : String
  training_metrics : List (String × ℚ)
deriving DecidableEq, Repr

/-- The MLflow-visible behaviour of `train_yolo_model`: the
hyperparameters and the dataset parameters are logged first; then the
single invocation of the external trainer (the parameter `trainer`)
either returns the numeric training metrics, completing the run
normally, or raises, in which case the stage logs the
`training_status = "failed"` parameter and the error message and
re-raises the same exception (the `Except.error`). -/
def train_yolo_model (run_id : String)
    (training_params dataset_params : List (String × String))
    (trainer : Except String (List (String × ℚ)))
    (log : List (String × String)) :
    List (String × String) × Except String ModelInfo :=
  let log1 := log ++ training_params ++ dataset_params
  match trainer with
  | Except.ok metrics =>
    (log1, Except.ok
      { run_id := run_id
        model_path := "/opt/airflow/runs/yolo_training_" ++ run_id ++ "/weights/best.pt"
        training_metrics := metrics })
  | Except.error e =>
    (log1 ++ [("training_status", "failed"), ("error_message", e)],
      Except.error e)

/-! ## Object detection and rendering (`appgen.py`) -/

/-- One raw YOLO box as read by `detect_objects`
(`box.cls`, `box.conf`, `box.xyxy`). -/
structure RawBox where
  cls : Nat
  conf : ℚ
  x1 : Int
  y1 : Int
  x2 : Int
  y2 : Int
deriving DecidableEq, Repr

/-- One entry of the `detected_objects` list built by `detect_objects`. -/
structure Detection where
  cls : String
  confidence : ℚ
  bbox : Int × Int × Int × Int
deriving DecidableEq, Repr

/-- `detect_objects(image, confidence_threshold=0.5)`: convert the
uploaded file to an array, run the external YOLO model on it and package
every returned box with its class name, confidence and corners.  Image
decoding (`toArray`), the model and its class-name table (`names`) are
external and passed as parameters.  Exactly as in the source,
`confidence_threshold` is accepted and never used. -/
def detect_objects {Img ImgArray : Type} (toArray : Img → ImgArray)
    (model : ImgArray → List RawBox) (names : Nat → String)
    (image : Img) (confidence_threshold : ℚ) : ImgArray × List Detection :=
  let img_array := toArray image
  let results := model img_array
  (img_array,
    results.map (fun b =>
      { cls := names b.cls, confidence := b.conf,
        bbox := (b.x1, b.y1, b.x2, b.y2) }))

/-- The call site in `main`: `detect_objects(uploaded_file)`.  The
sidebar slider value is read into `confidence_threshold` in `main` but
never forwarded, so the call always uses the source's default argument
0.5 (written explicitly here since the default lives in the callee). -/
def main_detect_call {Img ImgArray : Type} (toArray : Img → ImgArray)
    (model : ImgArray → List RawBox) (names : Nat → String)
    (image : Img) (confidence_slider : ℚ) : ImgArray × List Detection :=
  detect_objects toArray model names image (1 / 2)

/-- `visualize_detections(image, detections)`: `image.copy()` allocates a
fresh array; `cv2.rectangle` and `cv2.putText` (together the parameter
`drawDet`, one application per detection) mutate only that fresh array.
Mutable arrays live in a heap modelled as a list of values of the array
type `α`, references are indices into it; the function returns the
updated heap and the reference of the drawn copy (`none` embeds an
invalid input reference, which cannot arise from `main`). -/
def visualize_detections {α : Type} (drawDet : α → Detection → α)
    (heap : List α) (imageRef : Nat) (detections : List Detection) :
    Option (List α × Nat) :=
  (heap[imageRef]?).map (fun img =>
    (heap ++ [detections.foldl drawDet img], heap.length))

/-! ## Chat-completion request (`send_amaliai_request` in `appgen.py`) -/

/-- A content entry of the request payload: the text-only entry built by
the no-image branch, or the text-plus-inline-image entry (its two
`parts` folded into one constructor) built by the image branch. -/
inductive ContentItem where
  | textPart (text : String)
  | imagePart (text : String) (data : String)
deriving DecidableEq, Repr

/-- The request payload: a dictionary from key to list of content
entries, created as `{"contents": []}`. -/
abbrev Payload := List (String × List ContentItem)

/-- `payload[k].append(item)`: appending through a dictionary lookup;
an absent key is a `KeyError` (the `Except.error`). -/
def dictAppend (d : Payload) (k : String) (item : ContentItem) :
    Except String Payload :=
  match d.lookup k with
  | some items =>
    Except.ok (d.map (fun kv => if kv.1 = k then (kv.1, items ++ [item]) else kv))
  | none => Except.error ("KeyError: " ++ k)

/-- Payload construction in `send_amaliai_request`: the payload is
created as `{"contents": []}`; with an image the entry is appended under
`"contents"`, without one the source appends under `"content"` — a key
that was never created. -/
def build_payload (prompt : String) (image_base64 : Option String) :
    Except String Payload :=
  let payload : Payload := [("contents", [])]
  match image_base64 with
  | some img => dictAppend payload "contents" (ContentItem.imagePart prompt img)
  | none => dictAppend payload "content" (ContentItem.textPart prompt)

/-- The outcome of the single HTTP POST as observed by the function:
a reply whose candidates carry these texts (possibly none), or a
`requests.RequestException` with a message. -/
inductive HttpResult where
  | success (candidates : List String)
  | requestError (msg : String)

/-- `send_amaliai_request`: build the payload, POST it once (the HTTP
layer is the parameter `http`, keyed by the api key), and return the
first candidate's text, `"No response generated"` when there is none, or
the `"Request failed: ..."` message on a `requests.RequestException` —
the only exception class the source catches.  An `Except.error` is an
uncaught Python exception escaping to the caller. -/
def send_amaliai_request (api_key : String) (prompt : String)
    (image_base64 : Option String) (http : String → Payload → HttpResult) :
    Except String String :=
  match build_payload prompt image_base64 with
  | Except.error e => Except.error e
  | Except.ok payload =>
    match http api_key payload with
    | HttpResult.requestError e => Except.ok ("Request failed: " ++ e)
    | HttpResult.success [] => Except.ok "No response generated"
    | HttpResult.success (c :: _) => Except.ok c

/-! ## Metrics middleware (`metrics_middleware.py`) -/

/-- The slice of `st.session_state` that `track_active_users` reads and
writes: its `user_id` entry, absent until the first call of the session
(the stored value is a `time.time()` timestamp). -/
structure SessionState where
  user_id : Option ℚ
deriving DecidableEq, Repr

/-- `track_active_users`: when the session has no `user_id` yet, store
the current time and increment the `ACTIVE_USERS` gauge; otherwise leave
session state and gauge alone. -/
def track_active_users (s : SessionState) (active_users : ℚ) (now : ℚ) :
    SessionState × ℚ :=
  if s.user_id = none then ({ user_id := some now }, active_users + 1)
  else (s, active_users)

/-! ## Theorems about the evaluation stage -/

/-- C1: the F1 entry of `evaluate_model` is the unguarded expression
`2 * (mp * mr) / (mp + mr)`.  At mean precision = mean recall = 0 the
source divides by zero (no fallback value is produced), contradicting
the spec's requirement of a zero-denominator guard; away from the
boundary it is the harmonic mean, e.g. at mp = mr = 1/2 it is 1/2. -/
theorem f1_divides_by_zero_at_origin :
    f1_from_precision_recall 0 0 = none ∧
    f1_from_precision_recall (1 / 2) (1 / 2) = some (1 / 2) := by
  constructor <;> norm_num [f1_from_precision_recall]

/-- C5: `evaluate_model` labels the model good iff mAP@0.5 strictly
exceeds 0.70; at exactly 0.70 the label is needs_improvement and at
0.701 it is good. -/
theorem model_quality_strict_threshold :
    (∀ m : ℚ, model_quality m = Quality.good ↔ m > 7 / 10) ∧
    model_quality (7 / 10) = Quality.needs_improvement ∧
    model_quality (701 / 1000) = Quality.good := by
  refine ⟨fun m => ?_, by norm_num [model_quality], by norm_num [model_quality]⟩
  unfold model_quality
  split <;> simp_all

/-! ## Theorems about the comparison stage -/

/-- C3: the verdict computed by `run_ab_test` coincides, on every
registry, version number and score, with the reference definition
transcribed from the spec (first model passes unconditionally with
previous = null and previous score 0.0; otherwise the stored mAP@0.5
of the production version's run, defaulted to 0.0 when absent, is
subtracted and significance is a strict comparison with 0.05). -/
theorem run_ab_test_matches_spec :
    ∀ (r : Registry) (newVer : Nat) (new_score : ℚ),
      run_ab_test r newVer new_score = comparison_verdict_spec r newVer new_score := by
  intro r newVer s
  unfold run_ab_test comparison_verdict_spec
  cases latestProdIdx r <;> rfl

/-! ## Theorems about the promotion decision -/

/-- C2: `promote_to_production` returns "promoted" iff the quality label
is good, the A/B verdict is significant, and the new score strictly
exceeds 0.60; a score of exactly 0.60 is rejected even with good quality
and a significant verdict while 0.61 is accepted; and whenever the rule
fails the registry — hence the new version's stage — is left exactly as
Registration produced it. -/
theorem promotion_rule_strict_floor :
    ∀ (r : Registry) (newIdx : Nat) (q : Quality) (sig : Bool) (score : ℚ),
      ((promote_to_production r newIdx q sig score).2 = "promoted" ↔
        (q = Quality.good ∧ sig = true ∧ score > 3 / 5)) ∧
      (promote_to_production r newIdx Quality.good true (3 / 5)).2 = "not_promoted" ∧
      (promote_to_production r newIdx Quality.good true (61 / 100)).2 = "promoted" ∧
      ((promote_to_production r newIdx q sig score).2 = "not_promoted" →
        (promote_to_production r newIdx q sig score).1 = r) := by
  intro r newIdx q sig score
  have hsp : should_promote q sig score = true ↔
      (q = Quality.good ∧ sig = true ∧ score > 3 / 5) := by
    simp [should_promote, and_assoc]
  by_cases h : should_promote q sig score = true
  · refine ⟨?_, ?_, ?_, ?_⟩
    · simpa [promote_to_production, h] using hsp.mp h
    · norm_num [promote_to_production, should_promote]
    · norm_num [promote_to_production, should_promote]
    · intro hnp
      simp [promote_to_production, h] at hnp
  · refine ⟨?_, ?_, ?_, ?_⟩
    · simpa [promote_to_production, h] using fun hc => h (hsp.mpr hc)
    · norm_num [promote_to_production, should_promote]
    · norm_num [promote_to_production, should_promote]
    · intro _
      simp [promote_to_production, h]

/-- Closed instance of the promotion rule: at quality good, a
significant verdict and score 0.75 the theorem's biconditional yields
"promoted". -/
theorem promotion_rule_strict_floor_witness :
    (promote_to_production [] 0 Quality.good true (3 / 4)).2 = "promoted" :=
  (promotion_rule_strict_floor [] 0 Quality.good true (3 / 4)).1.mpr
    ⟨rfl, rfl, by norm_num⟩

/-! ## The single-Production invariant (registry lemmas) -/

lemma countProd_append (r s : Registry) :
    countProd (r ++ s) = countProd r + countProd s :=
  List.countP_append _ r s

lemma countProd_register (r : Registry) (m : ℚ) (q : Quality) :
    countProd (register_model r m q) = countProd r := by
  unfold register_model
  rw [countProd_append]
  cases q <;> rfl

lemma register_model_getElem_last (r : Registry) (m : ℚ) (q : Quality) :
    (register_model r m q)[r.length]? =
      some { stage := if q = Quality.good then Stage.staging else Stage.noStage,
             evalMap50 := some m } := by
  simp [register_model]

lemma latestProdIdx_append_nonprod (r : Registry) (v : Version)
    (hv : v.stage ≠ Stage.production) :
    latestProdIdx (r ++ [v]) = latestProdIdx r := by
  induction r with
  | nil => simp [latestProdIdx, hv]
  | cons a r ih => simp [latestProdIdx, ih]

lemma latestProdIdx_register (r : Registry) (m : ℚ) (q : Quality) :
    latestProdIdx (register_model r m q) = latestProdIdx r := by
  unfold register_model
  apply latestProdIdx_append_nonprod
  cases q <;> simp

lemma latestProdIdx_cons_some (a : Version) (r : Registry) (i : Nat)
    (h : latestProdIdx r = some i) :
    latestProdIdx (a :: r) = some (i + 1) := by
  rw [latestProdIdx, h]

lemma latestProdIdx_cons_none (a : Version) (r : Registry)
    (h : latestProdIdx r = none) :
    latestProdIdx (a :: r) =
      if a.stage = Stage.production then some 0 else none := by
  rw [latestProdIdx, h]

lemma latestProdIdx_some_spec (r : Registry) (p : Nat)
    (h : latestProdIdx r = some p) :
    ∃ v, r[p]? = some v ∧ v.stage = Stage.production := by
  induction r generalizing p with
  | nil => simp [latestProdIdx] at h
  | cons a r ih =>
    cases hr : latestProdIdx r with
    | some i =>
      rw [latestProdIdx_cons_some a r i hr, Option.some.injEq] at h
      obtain ⟨v, hv, hs⟩ := ih i hr
      subst h
      exact ⟨v, by simpa [List.getElem?_cons_succ] using hv, hs⟩
    | none =>
      rw [latestProdIdx_cons_none a r hr] at h
      split at h
      · rw [Option.some.injEq] at h
        subst h
        exact ⟨a, by simp, by assumption⟩
      · simp at h

lemma countProd_zero_of_latestProdIdx_none (r : Registry)
    (h : latestProdIdx r = none) : countProd r = 0 := by
  induction r with
  | nil => rfl
  | cons a r ih =>
    cases hr : latestProdIdx r with
    | some i => rw [latestProdIdx_cons_some a r i hr] at h; cases h
    | none =>
      rw [latestProdIdx_cons_none a r hr] at h
      split at h
      · cases h
      · rename_i hns
        have h0 : countProd r = 0 := ih hr
        simp only [countProd, List.countP_cons] at h0 ⊢
        simp [h0, hns]

lemma countProd_pos_of_getElem (r : Registry) (p : Nat) (v : Version)
    (hg : r[p]? = some v) (hs : v.stage = Stage.production) :
    0 < countProd r :=
  List.countP_pos_iff.mpr ⟨v, List.getElem?_mem hg, by simp [hs]⟩

lemma countP_set_add {α : Type} (p : α → Bool) :
    ∀ (l : List α) (i : Nat) (a b : α), l[i]? = some b →
      (l.set i a).countP p + (if p b then 1 else 0)
        = l.countP p + (if p a then 1 else 0) := by
  intro l
  induction l with
  | nil => intro i a b h; simp at h
  | cons c l ih =>
    intro i a b h
    cases i with
    | zero =>
      simp only [List.getElem?_cons_zero, Option.some.injEq] at h
      subst h
      simp only [List.set_cons_zero, List.countP_cons]
      omega
    | succ n =>
      simp only [List.getElem?_cons_succ] at h
      simp only [List.set_cons_succ, List.countP_cons]
      have := ih n a b h
      omega

lemma countProd_set (r : Registry) (i : Nat) (a b : Version)
    (h : r[i]? = some b) :
    countProd (r.set i a) + (if b.stage = Stage.production then 1 else 0)
      = countProd r + (if a.stage = Stage.production then 1 else 0) := by
  simpa [countProd] using
    countP_set_add (fun v => v.stage == Stage.production) r i a b h

/-- What `promote_to_production` does when the promotion rule fires:
the registry ends with exactly one Production version, namely the new
one (its other fields untouched), and whatever version was Production
before (if any) is now Archived. -/
lemma promote_promoted_spec (r1 : Registry) (newIdx : Nat) (q : Quality)
    (sig : Bool) (s : ℚ) (w : Version)
    (hw : r1[newIdx]? = some w) (hwst : w.stage ≠ Stage.production)
    (hle : countProd r1 ≤ 1)
    (hprom : should_promote q sig s = true) :
    countProd (promote_to_production r1 newIdx q sig s).1 = 1 ∧
    (promote_to_production r1 newIdx q sig s).1[newIdx]? =
      some { w with stage := Stage.production } ∧
    (∀ p, latestProdIdx r1 = some p →
      ((promote_to_production r1 newIdx q sig s).1[p]?).map Version.stage =
        some Stage.archived) := by
  have hwlt : newIdx < r1.length := (List.getElem?_eq_some.mp hw).1
  cases hl : latestProdIdx r1 with
  | none =>
    have hz : countProd r1 = 0 := countProd_zero_of_latestProdIdx_none r1 hl
    have hres : (promote_to_production r1 newIdx q sig s).1 =
        r1.set newIdx { w with stage := Stage.production } := by
      simp [promote_to_production, hprom, hl, transitionStage, hw]
    refine ⟨?_, ?_, ?_⟩
    · have hcount := countProd_set r1 newIdx { w with stage := Stage.production } w hw
      rw [if_neg hwst, if_pos rfl] at hcount
      rw [hres]
      omega
    · rw [hres]
      exact List.getElem?_set_eq_of_lt _ hwlt
    · intro p hp
      cases hp
  | some p =>
    obtain ⟨v, hv, hvs⟩ := latestProdIdx_some_spec r1 p hl
    have hpne : p ≠ newIdx := by
      intro he
      rw [he, hw] at hv
      cases hv
      exact hwst hvs
    have hplt : p < r1.length := (List.getElem?_eq_some.mp hv).1
    have hone : countProd r1 = 1 := by
      have := countProd_pos_of_getElem r1 p v hv hvs
      omega
    have hw2 : (r1.set p { v with stage := Stage.archived })[newIdx]? = some w := by
      rw [List.getElem?_set_ne hpne]
      exact hw
    have hres : (promote_to_production r1 newIdx q sig s).1 =
        (r1.set p { v with stage := Stage.archived }).set newIdx
          { w with stage := Stage.production } := by
      simp [promote_to_production, hprom, hl, transitionStage, hv, hw2]
    have hc2 : countProd (r1.set p { v with stage := Stage.archived }) = 0 := by
      have hcount := countProd_set r1 p { v with stage := Stage.archived } v hv
      rw [if_pos hvs, if_neg (by simp)] at hcount
      omega
    refine ⟨?_, ?_, ?_⟩
    · have hcount := countProd_set (r1.set p { v with stage := Stage.archived })
        newIdx { w with stage := Stage.production } w hw2
      rw [if_neg hwst, if_pos rfl] at hcount
      rw [hres]
      omega
    · rw [hres]
      exact List.getElem?_set_eq_of_lt _ (by rw [List.length_set]; exact hwlt)
    · intro p' hp'
      rw [Option.some.injEq] at hp'
      subst hp'
      rw [hres, List.getElem?_set_ne (Ne.symm hpne),
        List.getElem?_set_eq_of_lt _ hplt]
      rfl

/-- One pipeline run keeps the number of Production versions at most 1. -/
lemma pipelineRun_countProd_le (r : Registry) (m : ℚ)
    (h : countProd r ≤ 1) : countProd (pipelineRun r m).1 ≤ 1 := by
  simp only [pipelineRun]
  set q := model_quality m with hq
  set r1 := register_model r m q with hr1
  have h1 : countProd r1 = countProd r := countProd_register r m q
  set ab := run_ab_test r1 r.length m with hab
  by_cases sp : should_promote q ab.significant_improvement ab.new_model_score = true
  · have hw : r1[r.length]? =
        some { stage := if q = Quality.good then Stage.staging else Stage.noStage,
               evalMap50 := some m } := register_model_getElem_last r m q
    have hwst : (if q = Quality.good then Stage.staging else Stage.noStage) ≠
        Stage.production := by
      cases q <;> simp
    have := (promote_promoted_spec r1 r.length q ab.significant_improvement
      ab.new_model_score _ hw hwst (by omega) sp).1
    omega
  · simp only [promote_to_production, if_neg sp]
    omega

/-- C4: starting from a registry with no Production version, any
sequence of pipeline runs leaves at most one version at Production;
and one promoted run on a registry holding a Production version at
index `p` ends with exactly one Production version — the newly
registered one, whose other field is untouched — while the former
Production version is now Archived. -/
theorem production_invariant_and_archiving :
    (∀ r0 : Registry, countProd r0 = 0 →
      ∀ scores : List ℚ, countProd (runPipeline r0 scores) ≤ 1) ∧
    (∀ (r : Registry) (m : ℚ) (p : Nat), countProd r ≤ 1 →
      latestProdIdx r = some p →
      (pipelineRun r m).2 = "promoted" →
      countProd (pipelineRun r m).1 = 1 ∧
      (pipelineRun r m).1[r.length]? =
        some { stage := Stage.production, evalMap50 := some m } ∧
      ((pipelineRun r m).1[p]?).map Version.stage = some Stage.archived) := by
  constructor
  · intro r0 h0 scores
    have main : ∀ r : Registry, countProd r ≤ 1 →
        countProd (runPipeline r scores) ≤ 1 := by
      induction scores with
      | nil =>
        intro r h
        simpa [runPipeline] using h
      | cons m ms ih =>
        intro r h
        have h1 := pipelineRun_countProd_le r m h
        simpa [runPipeline] using ih _ h1
    exact main r0 (by omega)
  · intro r m p hle hp hprom
    simp only [pipelineRun] at hprom ⊢
    have hsp : should_promote (model_quality m)
        (run_ab_test (register_model r m (model_quality m)) r.length m).significant_improvement
        (run_ab_test (register_model r m (model_quality m)) r.length m).new_model_score
        = true := by
      by_contra hns
      rw [promote_to_production, if_neg hns] at hprom
      exact absurd (show "not_promoted" = "promoted" from hprom) (by decide)
    have hw := register_model_getElem_last r m (model_quality m)
    have hwst : (if model_quality m = Quality.good then Stage.staging
        else Stage.noStage) ≠ Stage.production := by
      split <;> simp
    have hle1 : countProd (register_model r m (model_quality m)) ≤ 1 := by
      rw [countProd_register]
      exact hle
    have hl1 : latestProdIdx (register_model r m (model_quality m)) = some p := by
      rw [latestProdIdx_register]
      exact hp
    obtain ⟨hc, hnew, harch⟩ := promote_promoted_spec
      (register_model r m (model_quality m)) r.length (model_quality m)
      (run_ab_test (register_model r m (model_quality m)) r.length m).significant_improvement
      (run_ab_test (register_model r m (model_quality m)) r.length m).new_model_score
      _ hw hwst hle1 hsp
    refine ⟨hc, ?_, harch p hl1⟩
    rw [hnew]

-- Closed instance of the invariant theorem: two runs with scores 0.75
-- and 0.90 from the empty registry, and one promoted run over a registry
-- holding a Production version with stored score 0.75.
unseal Rat.sub Rat.mul Rat.add Rat.inv in
theorem production_invariant_and_archiving_witness :
    countProd (runPipeline [] [3 / 4, 9 / 10]) ≤ 1 ∧
    (countProd (pipelineRun [⟨Stage.production, some (3 / 4)⟩] (9 / 10)).1 = 1 ∧
      (pipelineRun [⟨Stage.production, some (3 / 4)⟩] (9 / 10)).1[1]? =
        some { stage := Stage.production, evalMap50 := some (9 / 10) } ∧
      ((pipelineRun [⟨Stage.production, some (3 / 4)⟩] (9 / 10)).1[0]?).map
        Version.stage = some Stage.archived) :=
  ⟨production_invariant_and_archiving.1 [] rfl [3 / 4, 9 / 10],
   production_invariant_and_archiving.2 [⟨Stage.production, some (3 / 4)⟩]
     (9 / 10) 0 (by decide) (by decide) (by decide)⟩

/-! ## Theorems about the training failure path -/

/-- C7: when the external trainer raises, `train_yolo_model` logs the
`training_status = "failed"` parameter together with the error message —
after the parameters already logged — and re-raises the very same
exception, for every run id, parameter set, prior log and error; the
run neither retries (the trainer is invoked exactly once in the
embedding) nor continues to a success value. -/
theorem train_failure_logged_and_reraised :
    ∀ (run_id : String) (tp dp log : List (String × String)) (e : String),
      train_yolo_model run_id tp dp (Except.error e) log =
        (log ++ tp ++ dp ++ [("training_status", "failed"), ("error_message", e)],
         Except.error e) := by
  intro run_id tp dp log e
  simp [train_yolo_model]

/-! ## Theorems about the Streamlit application -/

/-- C6: `send_amaliai_request` without an image raises an uncaught
`KeyError` for every API key, prompt and HTTP behaviour — the payload is
created under the key `"contents"` but the text-only branch appends
under `"content"` — instead of returning a string; with an image it
returns a string for every HTTP outcome. -/
theorem send_amaliai_text_only_raises_keyerror :
    ∀ (api_key prompt : String) (http : String → Payload → HttpResult),
      send_amaliai_request api_key prompt none http =
        Except.error "KeyError: content" ∧
      ∀ img : String, ∃ s : String,
        send_amaliai_request api_key prompt (some img) http = Except.ok s := by
  intro api_key prompt http
  refine ⟨rfl, fun img => ?_⟩
  have hbp : build_payload prompt (some img) =
      Except.ok [("contents", [ContentItem.imagePart prompt img])] := rfl
  simp only [send_amaliai_request, hbp]
  cases http api_key [("contents", [ContentItem.imagePart prompt img])] with
  | success cands =>
    cases cands with
    | nil => exact ⟨"No response generated", rfl⟩
    | cons c rest => exact ⟨c, rfl⟩
  | requestError e => exact ⟨"Request failed: " ++ e, rfl⟩

/-- C8: the output of `detect_objects` is independent of the confidence
threshold — any two values give identical results on the same image,
model and name table — and the `main` call site never forwards the
sidebar slider, always invoking it at the default 0.5, so the advertised
minimum-confidence filtering has no effect on the returned detections. -/
theorem detect_objects_threshold_independent :
    ∀ (Img ImgArray : Type) (toArray : Img → ImgArray)
      (model : ImgArray → List RawBox) (names : Nat → String)
      (image : Img) (t1 t2 : ℚ),
      detect_objects toArray model names image t1 =
        detect_objects toArray model names image t2 ∧
      ∀ slider : ℚ,
        main_detect_call toArray model names image slider =
          detect_objects toArray model names image (1 / 2) := by
  intro Img ImgArray toArray model names image t1 t2
  exact ⟨rfl, fun slider => rfl⟩

/-- C9: `track_active_users` is idempotent per session: the first call of
a session stores an id and increments the gauge by exactly one, a call
on a session that already has an id changes nothing, and a repeated
call after any call changes nothing — so one session contributes at most
one active user. -/
theorem track_active_users_idempotent :
    ∀ (s : SessionState) (g now now2 : ℚ),
      track_active_users ⟨none⟩ g now = (⟨some now⟩, g + 1) ∧
      (∀ u : ℚ, track_active_users ⟨some u⟩ g now = (⟨some u⟩, g)) ∧
      track_active_users (track_active_users s g now).1
          (track_active_users s g now).2 now2 =
        track_active_users s g now := by
  intro s g now now2
  refine ⟨rfl, fun u => rfl, ?_⟩
  cases s with
  | mk uid =>
    cases uid with
    | none => rfl
    | some u => rfl

/-- C10: `visualize_detections` draws on a copy: for every heap of live
arrays and valid image reference, the returned reference is a fresh cell
holding the input image with all detections drawn onto it, and every
cell that existed before the call — the caller's image in particular —
still holds its old value. -/
theorem visualize_detections_preserves_input :
    ∀ (α : Type) (drawDet : α → Detection → α) (heap : List α)
      (imageRef : Nat) (dets : List Detection) (img : α),
      heap[imageRef]? = some img →
      visualize_detections drawDet heap imageRef dets =
        some (heap ++ [dets.foldl drawDet img], heap.length) ∧
      ∀ i : Nat, i < heap.length →
        (heap ++ [dets.foldl drawDet img])[i]? = heap[i]? := by
  intro α drawDet heap imageRef dets img h
  exact ⟨by simp [visualize_detections, h], fun i hi => List.getElem?_append_left hi⟩

-- Closed instance of the copy-preservation theorem: a one-cell heap
-- holding the value 5, one detection, drawing modelled as adding 1.
theorem visualize_detections_preserves_input_witness :
    visualize_detections (fun (a : Nat) (_ : Detection) => a + 1) [5] 0
        [⟨"healthy", 1, (0, 0, 10, 10)⟩] = some ([5, 6], 1) ∧
    ([5, 6] : List Nat)[0]? = ([5] : List Nat)[0]? :=
  ⟨(visualize_detections_preserves_input Nat (fun a _ => a + 1) [5] 0
      [⟨"healthy", 1, (0, 0, 10, 10)⟩] 5 rfl).1,
   (visualize_detections_preserves_input Nat (fun a _ => a + 1) [5] 0
      [⟨"healthy", 1, (0, 0, 10, 10)⟩] 5 rfl).2 0 (by decide)⟩

-- Closed instance of the quality threshold: mAP@0.5 = 0.75 is good.
theorem model_quality_strict_threshold_witness :
    model_quality (3 / 4) = Quality.good :=
  (model_quality_strict_threshold.1 (3 / 4)).mpr (by norm_num)

end GreenAI
